import Mathlib

/-!
Shallow embedding of the viberot daemon's event-to-action pipeline
(src/src/action_orchestrator.rs, src/src/rule_engine.rs, src/src/config.rs,
src/src/platform/posix_shell.rs, src/src/platform/mod.rs).

Modelling conventions:
- Rust `u32` values (pids, the synthetic pid counter) are `Nat` with explicit
  `% 2 ^ 32` where wrap-around matters.
- `HashMap`/`HashSet` state is modelled as association lists / lists used as
  sets, with insert-replace and remove semantics mirroring the std containers.
- Fallible or external effects (child spawning, environment lookup, base64
  decoding, the `DefaultHasher` fingerprint) are parameters of the functions
  that use them, so every theorem quantifies over their behaviour.
- Strings are manipulated as `List Char` where the Rust code does byte-index
  surgery (`String::find`, `replace_range`); `String` wrappers convert.
-/

namespace Viberot

/-- Mirrors `config.rs` `enum Action`: `Executable { path, args, single_instance }`
and `Lua { script, single_instance }`. -/
inductive Action where
  | Executable (path : String) (args : Option (List String)) (singleInstance : Bool)
  | Lua (script : String) (singleInstance : Bool)
deriving DecidableEq, Repr

/-- Mirrors `config.rs` `enum Commands` (untagged single-or-many). -/
inductive Commands where
  | Single (cmd : String)
  | Multiple (cmds : List String)
deriving DecidableEq, Repr

/-- Mirrors `config.rs` `enum Actions` (untagged single-or-many). -/
inductive Actions where
  | Single (a : Action)
  | Multiple (la : List Action)
deriving DecidableEq, Repr

/-- Mirrors `config.rs` `struct Rule { command, action }`. -/
structure Rule where
  command : Commands
  action : Actions
deriving DecidableEq, Repr

/-- Mirrors `config.rs` `struct Config { rules, viberot_home }`. -/
structure Config where
  rules : List Rule
  viberot_home : Option String
deriving DecidableEq, Repr

/-- Mirrors `Commands::as_vec`. -/
def Commands.as_vec : Commands → List String
  | .Single cmd => [cmd]
  | .Multiple cmds => cmds

/-- Mirrors `Actions::as_vec`. -/
def Actions.as_vec : Actions → List Action
  | .Single a => [a]
  | .Multiple la => la

/-- Mirrors `platform/mod.rs` `enum ProbeSource` together with the
`PosixShell` variant used by `posix_shell.rs` and the orchestrator. -/
inductive ProbeSource where
  | WindowsEtw
  | LinuxShell
  | MacOsDtrace
  | PosixShell
deriving DecidableEq, Repr

/-- Mirrors `platform/mod.rs` `struct ProcessEvent`. -/
structure ProcessEvent where
  pid : Nat
  command : String
  timestamp : Nat
  working_directory : Option String := none
  environment : Option (List (String × String)) := none
  shell_session_id : Option String := none
  probe_source : ProbeSource
deriving DecidableEq, Repr

/-- Mirrors `platform/mod.rs` `enum ProcessLifecycleEvent`. -/
inductive ProcessLifecycleEvent where
  | Started (event : ProcessEvent)
  | Ended (pid : Nat)
deriving DecidableEq, Repr

/-! Association-list model of `HashMap` and list-as-set model of `HashSet`. -/

/-- First value stored under `k` (`HashMap::get`; keys are unique in use). -/
def lookupAssoc {α : Type} (l : List (String × α)) (k : String) : Option α :=
  match l with
  | [] => none
  | (k', v) :: rest => if k' = k then some v else lookupAssoc rest k

/-- Remove every entry with key `k` (`HashMap::remove`; keys are unique in use). -/
def removeKey {α : Type} (l : List (String × α)) (k : String) : List (String × α) :=
  match l with
  | [] => []
  | (k', v) :: rest => if k' = k then removeKey rest k else (k', v) :: removeKey rest k

/-- Insert-replace (`HashMap::insert`). -/
def insertAssoc {α : Type} (l : List (String × α)) (k : String) (v : α) :
    List (String × α) :=
  (k, v) :: removeKey l k

/-- Set insert (`HashSet::insert`): no duplicate is added. -/
def insertKey (l : List String) (k : String) : List String :=
  if l.contains k then l else k :: l

/-! Action orchestrator (`action_orchestrator.rs`). -/

/-- Mirrors `struct ActiveAction`: the live child (by its pid handle) and the
originating `Action`. -/
structure ActiveAction where
  child : Nat
  action : Action
deriving DecidableEq, Repr

/-- Mirrors `struct ActionOrchestrator`'s two pieces of state:
`active_actions : HashMap<u32, Vec<ActiveAction>>` as an association list and
`running_single_instance_actions : HashSet<String>` as a duplicate-free list. -/
structure OrchestratorState where
  active_actions : List (Nat × List ActiveAction)
  running_single_instance_actions : List String
deriving DecidableEq, Repr

/-- Mirrors `ActionOrchestrator::new`. -/
def OrchestratorState.new : OrchestratorState :=
  { active_actions := [], running_single_instance_actions := [] }

/-- Mirrors `is_single_instance`. -/
def is_single_instance : Action → Bool
  | .Executable _ _ si => si
  | .Lua _ si => si

/-- Mirrors `get_action_key`: `"exec:" + path + ":" + args.join(" ")` for
executables, `"lua:" + script` for Lua actions. -/
def get_action_key : Action → String
  | .Executable path args _ =>
      "exec:" ++ path ++ ":" ++ (args.map (String.intercalate " ")).getD ""
  | .Lua script _ => "lua:" ++ script

/-- Mirrors `active_actions.entry(pid).or_insert_with(Vec::new).push(aa)`. -/
def pushActive (m : List (Nat × List ActiveAction)) (pid : Nat) (aa : ActiveAction) :
    List (Nat × List ActiveAction) :=
  match m with
  | [] => [(pid, [aa])]
  | (p, l) :: rest =>
      if p = pid then (p, l ++ [aa]) :: rest else (p, l) :: pushActive rest pid aa

/-- Mirrors `active_actions.get(&pid)` on the pid-keyed map. -/
def lookupPid (m : List (Nat × List ActiveAction)) (pid : Nat) :
    Option (List ActiveAction) :=
  match m with
  | [] => none
  | (p, l) :: rest => if p = pid then some l else lookupPid rest pid

/-- Mirrors `active_actions.remove(&pid)` (the remaining map). -/
def removePid (m : List (Nat × List ActiveAction)) (pid : Nat) :
    List (Nat × List ActiveAction) :=
  match m with
  | [] => []
  | (p, l) :: rest => if p = pid then removePid rest pid else (p, l) :: removePid rest pid

/-- Mirrors `start_action`. `spawn` is the outcome of `start_executable_action`'s
path resolution and `cmd.spawn()` (`none` = the propagated error, `some child` =
the spawned child's pid). The result is the new state, the `Result<(),_>`
success flag, and the list of actions for which a spawn was attempted (i.e. for
which `start_executable_action` was invoked). -/
def start_action (spawn : Action → Option Nat) (st : OrchestratorState)
    (a : Action) (event : ProcessEvent) :
    OrchestratorState × Bool × List Action :=
  if is_single_instance a &&
      st.running_single_instance_actions.contains (get_action_key a) then
    -- already running: skip silently, report success
    (st, true, [])
  else
    let st1 : OrchestratorState :=
      if is_single_instance a then
        { st with running_single_instance_actions :=
            insertKey st.running_single_instance_actions (get_action_key a) }
      else st
    match a with
    | .Executable _ _ _ =>
        match spawn a with
        | some child =>
            ({ st1 with active_actions :=
                pushActive st1.active_actions event.pid { child := child, action := a } },
             true, [a])
        | none => (st1, false, [a])
    | .Lua _ _ =>
        -- "Lua actions not yet implemented": warn and return Ok
        (st1, true, [])

/-- Mirrors `start_actions`: process every action in order, collect errors,
succeed iff no per-action error occurred. -/
def start_actions (spawn : Action → Option Nat) (st : OrchestratorState)
    (actions : List Action) (event : ProcessEvent) :
    OrchestratorState × Bool × List Action :=
  match actions with
  | [] => (st, true, [])
  | a :: rest =>
      let r1 := start_action spawn st a event
      let r2 := start_actions spawn r1.1 rest event
      (r2.1, r1.2.1 && r2.2.1, r1.2.2 ++ r2.2.2)

/-- Mirrors `finish_action(target_pid)`: remove the pid's action list and drop
the single-instance keys of the removed actions (child termination itself is an
external effect outside this state). -/
def finish_action (st : OrchestratorState) (target_pid : Nat) : OrchestratorState :=
  match lookupPid st.active_actions target_pid with
  | none => st
  | some action_list =>
      { active_actions := removePid st.active_actions target_pid,
        running_single_instance_actions :=
          action_list.foldl
            (fun ks aa =>
              if is_single_instance aa.action then ks.erase (get_action_key aa.action)
              else ks)
            st.running_single_instance_actions }

/-- Mirrors `shutdown`: drain `active_actions`, clear the single-instance set. -/
def shutdown (_st : OrchestratorState) : OrchestratorState :=
  { active_actions := [], running_single_instance_actions := [] }

/-- Invariant claimed by the spec (§3 invariant 2): single-instance live actions
have their key tracked, and every tracked key has a live action. -/
def KeysConsistent (st : OrchestratorState) : Prop :=
  (∀ p aas aa, (p, aas) ∈ st.active_actions → aa ∈ aas →
      is_single_instance aa.action = true →
      st.running_single_instance_actions.contains (get_action_key aa.action) = true) ∧
  (∀ k, k ∈ st.running_single_instance_actions →
      ∃ p aas aa, (p, aas) ∈ st.active_actions ∧ aa ∈ aas ∧
        is_single_instance aa.action = true ∧ get_action_key aa.action = k)

/-! Path handling (`resolve_action_path`, `expand_environment_variables`).
The project root returned by `get_viberot_root` is a filesystem discovery; it
is a parameter `root` here (the success case), and the environment is a
parameter `getVar` (`env::var`). Paths follow Unix rules (`is_absolute` =
leading `/`, `PathBuf::join` inserts a `/`). -/

/-- Whitespace test used by `str::trim` (the ASCII fragment of Rust's Unicode
whitespace; the configuration paths at issue are ASCII). -/
def isWhitespaceChar (c : Char) : Bool :=
  c == ' ' || c == '\t' || c == '\n' || c == '\r'

/-- Mirrors `str::trim`: drop whitespace from both ends. -/
def strTrim (s : String) : String :=
  String.mk (((s.data.dropWhile isWhitespaceChar).reverse.dropWhile
    isWhitespaceChar).reverse)

/-- Mirrors `str::contains(char)`. -/
def strContains (s : String) (c : Char) : Bool :=
  s.data.contains c

/-- Mirrors `Path::is_absolute` on Unix: a leading `/`. -/
def is_absolute (s : String) : Bool :=
  match s.data with
  | '/' :: _ => true
  | _ => false

/-- Mirrors `PathBuf::join`: an absolute right side replaces, otherwise it is
appended with a separator when needed. -/
def pathJoin (base p : String) : String :=
  if is_absolute p then p
  else if base.data.isEmpty || base.data.getLast? == some '/' then base ++ p
  else base ++ "/" ++ p

/-- True when `pat` is a leading prefix of `s` (helper for `String::find`). -/
def isPrefixList : List Char → List Char → Bool
  | [], _ => true
  | _ :: _, [] => false
  | p :: ps, c :: cs => p == c && isPrefixList ps cs

/-- Mirrors `str::find(substring)`: index of the first occurrence. -/
def findSub : List Char → List Char → Option Nat
  | [], pat => if pat.isEmpty then some 0 else none
  | c :: rest, pat =>
      if isPrefixList pat (c :: rest) then some 0
      else (findSub rest pat).map (· + 1)

/-- One iteration of the `while let Some(start) = result.find("${")` loop of
`expand_environment_variables`: either the loop exits (`done`) or it replaces
the first `${VAR}` occurrence and runs again (`next`). -/
inductive ExpandStep where
  | done (s : List Char)
  | next (s : List Char)
deriving DecidableEq, Repr

/-- Loop body of `expand_environment_variables` (source lines 63-77): find
`${`, find the following `}`, look the name up (`VIBEROT_HOME` ↦ root,
`VIBEROT_ACTIONS` ↦ root/actions, otherwise the environment, falling back to
the literal placeholder with a warning), and splice the value in place. -/
def expandStep (getVar : String → Option String) (root : String) (s : List Char) :
    ExpandStep :=
  match findSub s ['$', '{'] with
  | none => .done s
  | some start =>
      match List.findIdx? (fun c => c == '}') (s.drop start) with
      | none => .done s
      | some e =>
          let varName : List Char := (s.drop (start + 2)).take (e - 2)
          let varValue : List Char :=
            if varName = "VIBEROT_HOME".data then root.data
            else if varName = "VIBEROT_ACTIONS".data then (pathJoin root "actions").data
            else
              match getVar (String.mk varName) with
              | some v => v.data
              | none => '$' :: '{' :: (varName ++ ['}'])
          .next (s.take start ++ varValue ++ s.drop (start + e + 1))

/-- Fuelled iteration of `expandStep`: `none` means the loop was still running
after `fuel` iterations (the Rust loop has no bound of its own). -/
def expandLoop (getVar : String → Option String) (root : String) :
    Nat → List Char → Option (List Char)
  | 0, _ => none
  | fuel + 1, s =>
      match expandStep getVar root s with
      | .done s' => some s'
      | .next s' => expandLoop getVar root fuel s'

/-- Mirrors `expand_environment_variables` as a fuelled computation on
strings. -/
def expand_environment_variables (getVar : String → Option String) (root : String)
    (fuel : Nat) (path : String) : Option String :=
  (expandLoop getVar root fuel path.data).map String.mk

/-- Mirrors `resolve_action_path` (source lines 31-58): trim, keep bare names
for PATH lookup, otherwise expand `${VAR}`s and absolutize against the project
root. -/
def resolve_action_path (getVar : String → Option String) (root : String)
    (fuel : Nat) (path : String) : Option String :=
  let path_str := strTrim path
  if !strContains path_str '/' && !strContains path_str '\\' &&
      !strContains path_str '.' then
    some path_str
  else
    match expand_environment_variables getVar root fuel path_str with
    | none => none
    | some expanded =>
        if is_absolute expanded then some expanded
        else some (pathJoin root expanded)

/-! Glob matching (`rule_engine.rs` over the `globset` crate). The model
covers the glob fragment the configuration language uses: literals, `*`, `?`
and `[...]` character classes (with `!` negation and ranges); an unclosed
class is a compile error, exactly as `Glob::new` rejects it. `*` matches any
run of characters. -/

/-- One entry of a `[...]` character class. -/
inductive ClsItem where
  | single (c : Char)
  | range (lo hi : Char)
deriving DecidableEq, Repr

/-- Compiled glob token. -/
inductive GlobToken where
  | lit (c : Char)
  | star
  | qmark
  | cls (negated : Bool) (items : List ClsItem)
deriving DecidableEq, Repr

/-- Parse the interior of a `[...]` class; `none` when the class is unclosed. -/
def parseClassItems (s : List Char) : Option (List ClsItem × List Char) :=
  match s with
  | [] => none
  | ']' :: rest => some ([], rest)
  | lo :: '-' :: hi :: rest =>
      match parseClassItems rest with
      | none => none
      | some (items, r) => some (.range lo hi :: items, r)
  | c :: rest =>
      match parseClassItems rest with
      | none => none
      | some (items, r) => some (.single c :: items, r)

/-- Recursive worker of `globParse`. Every step consumes at least one
character and exactly one unit of fuel, so fuel `s.length` (supplied by
`globParse`) never runs out. -/
def globParseAux : Nat → List Char → Option (List GlobToken)
  | _, [] => some []
  | 0, _ :: _ => none
  | fuel + 1, '*' :: rest => (globParseAux fuel rest).map (fun ts => .star :: ts)
  | fuel + 1, '?' :: rest => (globParseAux fuel rest).map (fun ts => .qmark :: ts)
  | fuel + 1, '[' :: '!' :: rest =>
      match parseClassItems rest with
      | none => none
      | some (items, rem) => (globParseAux fuel rem).map (fun ts => .cls true items :: ts)
  | fuel + 1, '[' :: rest =>
      match parseClassItems rest with
      | none => none
      | some (items, rem) => (globParseAux fuel rem).map (fun ts => .cls false items :: ts)
  | fuel + 1, c :: rest => (globParseAux fuel rest).map (fun ts => .lit c :: ts)

/-- Mirrors `Glob::new` compilation: `none` is a pattern error (the engine
logs and skips such patterns). -/
def globParse (s : List Char) : Option (List GlobToken) :=
  globParseAux s.length s

/-- Membership of a character in one class item. -/
def clsItemMatch (it : ClsItem) (c : Char) : Bool :=
  match it with
  | .single a => a == c
  | .range lo hi => decide (lo.toNat ≤ c.toNat) && decide (c.toNat ≤ hi.toNat)

/-- Membership of a character in a (possibly negated) class. -/
def clsMatch (negated : Bool) (items : List ClsItem) (c : Char) : Bool :=
  let m := items.any (fun it => clsItemMatch it c)
  if negated then !m else m

/-- Glob token matching against a character list; `*` may absorb any run of
characters, expressed as matching the rest of the tokens against some suffix
of the input. -/
def tokensMatch : List GlobToken → List Char → Bool
  | [], cs => cs.isEmpty
  | .star :: ts, cs => cs.tails.any (fun suf => tokensMatch ts suf)
  | .qmark :: _, [] => false
  | .qmark :: ts, _ :: cs => tokensMatch ts cs
  | .lit _ :: _, [] => false
  | .lit a :: ts, c :: cs => a == c && tokensMatch ts cs
  | .cls _ _ :: _, [] => false
  | .cls n items :: ts, c :: cs => clsMatch n items c && tokensMatch ts cs

/-- Mirrors `Glob::new` on a pattern string. -/
def globCompile (pattern : String) : Option (List GlobToken) :=
  globParse pattern.data

/-- Mirrors `GlobSet::matches`: the indices of all globs matching `command`,
in ascending order. -/
def globSetMatches (globs : List (List GlobToken)) (command : String) : List Nat :=
  (List.range globs.length).filter (fun i => tokensMatch (globs.getD i []) command.data)

/-! Rule engine (`rule_engine.rs`). The `DefaultHasher` fingerprint is the
parameter `h`; `GlobSetBuilder::build` is modelled as always succeeding (its
only failure mode is a regex size limit never reached by configuration-scale
patterns). -/

/-- Mirrors `struct CachedGlobData`. -/
structure CachedGlobData where
  config_hash : Nat
  glob_set : List (List GlobToken)
  rule_actions : List (List Action)
deriving DecidableEq, Repr

/-- Compiled (glob, actions) pairs contributed by one rule: one entry per
pattern that compiles, in pattern order; a failing pattern is logged and
skipped (`rebuild_cache` source lines 64-79). -/
def compileRule (r : Rule) : List (List GlobToken × List Action) :=
  r.command.as_vec.filterMap
    (fun pat => (globCompile pat).map (fun g => (g, r.action.as_vec)))

/-- All compiled pairs of a config, in rule-declaration order. The source
pushes the glob to the builder and the action list to `rule_actions` in the
same loop arm, so the two parallel sequences are the projections of this
list. -/
def compiledPairs (config : Config) : List (List GlobToken × List Action) :=
  config.rules.flatMap compileRule

/-- Mirrors `rebuild_cache` (with the given recomputed fingerprint). -/
def rebuild_cache (config : Config) (config_hash : Nat) : CachedGlobData :=
  { config_hash := config_hash,
    glob_set := (compiledPairs config).map Prod.fst,
    rule_actions := (compiledPairs config).map Prod.snd }

/-- The matching loop of `match_command`: for every matching glob index,
extend the output with `rule_actions[match_idx]` (in-bounds lookups are proved
separately; out of bounds would be a Rust panic, modelled as `[]`). -/
def collectActions (data : CachedGlobData) (command : String) : List Action :=
  (globSetMatches data.glob_set command).foldl
    (fun acc i => acc ++ data.rule_actions.getD i []) []

/-- Mirrors `match_command` over an explicit cache state: on a fingerprint hit
the cached matcher is used unchanged; otherwise the cache is rebuilt and
matching retried on the new data. Returns the actions and the new cache. -/
def match_command (h : Config → Nat) (st : Option CachedGlobData)
    (command : String) (config : Config) : List Action × Option CachedGlobData :=
  let config_hash := h config
  match st with
  | some data =>
      if data.config_hash = config_hash then (collectActions data command, st)
      else
        let newData := rebuild_cache config config_hash
        (collectActions newData command, some newData)
  | none =>
      let newData := rebuild_cache config config_hash
      (collectActions newData command, some newData)

/-- Modelled from the spec (§4.2 Query): "evaluate `command` against the
glob-set; for every matching glob, append its mapped actions to the output
(preserving declaration order of rules, then of actions within a rule)", with
non-compiling patterns skipped. Used as the specification side of the
refinement claims about `match_command`. -/
def specMatchedActions (config : Config) (command : String) : List Action :=
  config.rules.flatMap (fun r =>
    r.command.as_vec.flatMap (fun pat =>
      match globCompile pat with
      | some g => if tokensMatch g command.data then r.action.as_vec else []
      | none => []))

/-- The cache contents are faithful: whatever entry claims this config's
fingerprint really is this config's compiled matcher. This is the spec's
fingerprint contract ("equal fingerprints imply identical semantics"). -/
def CacheFaithful (h : Config → Nat) (st : Option CachedGlobData) (config : Config) :
    Prop :=
  ∀ d, st = some d → d.config_hash = h config →
    d.glob_set = (compiledPairs config).map Prod.fst ∧
    d.rule_actions = (compiledPairs config).map Prod.snd

/-! Synthetic pid counter (`posix_shell.rs` lines 17-19 and 63-65):
`static SYNTHETIC_PID_COUNTER: AtomicU32 = AtomicU32::new(1_000_000)` and
`fetch_add(1)`, which wraps at `2^32`. -/

def SYNTHETIC_PID_COUNTER_INIT : Nat := 1000000

/-- The `u32` modulus. -/
def U32_MOD : Nat := 2 ^ 32

/-- Counter value before the `(n+1)`-st `fetch_add`. -/
def syntheticPidCounter : Nat → Nat
  | 0 => SYNTHETIC_PID_COUNTER_INIT
  | n + 1 => (syntheticPidCounter n + 1) % U32_MOD

/-- Mirrors `generate_synthetic_pid`: the value returned by the `(n+1)`-st
call in a run (`fetch_add` returns the previous counter value). -/
def generate_synthetic_pid (n : Nat) : Nat := syntheticPidCounter n

/-! Shell probe message handling (`posix_shell.rs` `handle_connection`,
lines 297-400). Base64 decoding plus lossy UTF-8 conversion is the parameter
`decode` (`none` = decode error); the wall clock of `ProcessEvent::new` is the
parameter `now`. The session map is shared across connections, so a run is a
sequence of parsed `ShellMessage`s processed against one state. -/

/-- Mirrors `enum ShellEventType`. -/
inductive ShellEventType where
  | CommandStart
  | CommandEnd
deriving DecidableEq, Repr

/-- Mirrors `struct ShellMessage`. -/
structure ShellMessage where
  session_id : String
  event_type : ShellEventType
  command : Option String := none
  command_b64 : Option String := none
  exit_code : Option Int := none
  working_directory : Option String := none
  working_directory_b64 : Option String := none
  environment : Option (List (String × String)) := none
deriving DecidableEq, Repr

/-- Probe state: the `active_sessions` map and the synthetic pid counter. -/
structure ProbeState where
  active_sessions : List (String × Nat)
  counter : Nat
deriving DecidableEq, Repr

/-- Probe state at daemon start. -/
def initialProbeState : ProbeState :=
  { active_sessions := [], counter := SYNTHETIC_PID_COUNTER_INIT }

/-- Processing of one parsed shell message (source lines 319-395): on
CommandStart decode, allocate a synthetic pid, record the session mapping and
emit `Started`; on CommandEnd remove the mapping and emit `Ended` with the
stored pid, or log and drop when the session is unknown. -/
def processShellMessage (decode : String → Option String) (now : Nat)
    (st : ProbeState) (msg : ShellMessage) : ProbeState × List ProcessLifecycleEvent :=
  match msg.event_type with
  | .CommandStart =>
      let command : String :=
        match msg.command_b64 with
        | some b64 =>
            match decode b64 with
            | some d => d
            | none => msg.command.getD "<decode error>"
        | none => msg.command.getD "<unknown command>"
      let synthetic_pid := st.counter
      let wd : Option String :=
        match msg.working_directory_b64 with
        | some b64 =>
            match decode b64 with
            | some d => some d
            | none => msg.working_directory
        | none => msg.working_directory
      let event : ProcessEvent :=
        { pid := synthetic_pid, command := command, timestamp := now,
          working_directory := wd, environment := msg.environment,
          shell_session_id := some msg.session_id, probe_source := .PosixShell }
      ({ active_sessions := insertAssoc st.active_sessions msg.session_id synthetic_pid,
         counter := (st.counter + 1) % U32_MOD },
       [.Started event])
  | .CommandEnd =>
      match lookupAssoc st.active_sessions msg.session_id with
      | some synthetic_pid =>
          ({ active_sessions := removeKey st.active_sessions msg.session_id,
             counter := st.counter },
           [.Ended synthetic_pid])
      | none => (st, [])

/-- A whole run of the probe over a sequence of parsed messages, producing the
concatenated lifecycle-event trace in emission order. -/
def processShellMessages (decode : String → Option String) (now : Nat)
    (st : ProbeState) (msgs : List ShellMessage) :
    ProbeState × List ProcessLifecycleEvent :=
  match msgs with
  | [] => (st, [])
  | m :: rest =>
      let r1 := processShellMessage decode now st m
      let r2 := processShellMessages decode now r1.1 rest
      (r2.1, r1.2 ++ r2.2)

/-- Trace checker: scanning left to right with a pool of not-yet-closed
Started pids, every `Ended p` must consume an earlier `Started p`. Its truth
expresses both "no Ended before its Started" and "at most one Ended per
Started". -/
def endedCovered : List Nat → List ProcessLifecycleEvent → Bool
  | _, [] => true
  | avail, .Started e :: rest => endedCovered (e.pid :: avail) rest
  | avail, .Ended p :: rest => avail.contains p && endedCovered (avail.erase p) rest

/-- The multiset of synthetic pids stored in the session map. -/
def sessionPids (l : List (String × Nat)) : Multiset Nat :=
  (l.map Prod.snd : List Nat)

/-! Concrete sample data used by counterexamples and witnesses. -/

/-- A sample Started event (spec scenario S1). -/
def sampleEvent : ProcessEvent :=
  { pid := 42, command := "cargo build --release", timestamp := 0,
    probe_source := .PosixShell }

/-- Spec scenario S4: one rule with the invalid pattern `"[unclosed"`, one
rule with the valid pattern `"*git*"`. -/
def cfgS4 : Config :=
  { rules :=
      [ { command := Commands.Single "[unclosed",
          action := Actions.Single (Action.Executable "badact" none false) },
        { command := Commands.Single "*git*",
          action := Actions.Single (Action.Executable "gitact" none false) } ],
    viberot_home := none }

/-- Two distinct rules whose patterns both match everything and map to the
same action: duplicates must be passed through undeduplicated. -/
def cfgDup : Config :=
  { rules :=
      [ { command := Commands.Single "*",
          action := Actions.Single (Action.Executable "ovl" none false) },
        { command := Commands.Single "*",
          action := Actions.Single (Action.Executable "ovl" none false) } ],
    viberot_home := none }

/-! Helper lemmas. -/

/-- Closed form of the synthetic pid counter. -/
lemma syntheticPidCounter_eq (n : Nat) :
    syntheticPidCounter n = (SYNTHETIC_PID_COUNTER_INIT + n) % U32_MOD := by
  induction n with
  | zero =>
      simp [syntheticPidCounter, SYNTHETIC_PID_COUNTER_INIT, U32_MOD]
  | succ n ih =>
      rw [syntheticPidCounter, ih, Nat.mod_add_mod, Nat.add_assoc]

/-! Theorems for the claims. -/

/-- C5 counterexample: the claim asserts that every synthetic pid is at least
1,000,000 and that no two of any number of allocations collide; but the `u32`
counter wraps, so allocation number `2^32 - 1,000,000` returns pid `0`, and
allocation number `2^32` returns the same pid as allocation number `0`. -/
theorem c5_counterexample :
    generate_synthetic_pid (U32_MOD - SYNTHETIC_PID_COUNTER_INIT) = 0 ∧
    (0 : Nat) < 1000000 ∧
    generate_synthetic_pid U32_MOD = generate_synthetic_pid 0 := by
  refine ⟨?_, by norm_num, ?_⟩ <;>
    simp [generate_synthetic_pid, syntheticPidCounter_eq, SYNTHETIC_PID_COUNTER_INIT,
      U32_MOD]

/-- C5 (amended): synthetic pids are ≥ 1,000,000 for the first
`2^32 - 1,000,000` allocations, and pairwise distinct among the first `2^32`
allocations; both bounds are sharp because the `u32` counter wraps. -/
theorem c5_synthetic_pid_bounded_unique :
    (∀ n, n < U32_MOD - SYNTHETIC_PID_COUNTER_INIT →
      SYNTHETIC_PID_COUNTER_INIT ≤ generate_synthetic_pid n) ∧
    (∀ m n, m < n → n < U32_MOD →
      generate_synthetic_pid m ≠ generate_synthetic_pid n) := by
  constructor
  · intro n hn
    have hlt : SYNTHETIC_PID_COUNTER_INIT + n < U32_MOD := by
      simp only [SYNTHETIC_PID_COUNTER_INIT, U32_MOD] at *
      omega
    simp [generate_synthetic_pid, syntheticPidCounter_eq, Nat.mod_eq_of_lt hlt]
  · intro m n hmn hn heq
    simp only [generate_synthetic_pid, syntheticPidCounter_eq] at heq
    have hle : SYNTHETIC_PID_COUNTER_INIT + m ≤ SYNTHETIC_PID_COUNTER_INIT + n := by omega
    have hdvd : U32_MOD ∣ (SYNTHETIC_PID_COUNTER_INIT + n) - (SYNTHETIC_PID_COUNTER_INIT + m) :=
      (Nat.modEq_iff_dvd' hle).mp heq
    have hpos : 0 < (SYNTHETIC_PID_COUNTER_INIT + n) - (SYNTHETIC_PID_COUNTER_INIT + m) := by
      omega
    have := Nat.le_of_dvd hpos hdvd
    omega

/-- C5 witness: the amended theorem applied at allocations 5 and (2, 3). -/
theorem c5_witness :
    SYNTHETIC_PID_COUNTER_INIT ≤ generate_synthetic_pid 5 ∧
    generate_synthetic_pid 2 ≠ generate_synthetic_pid 3 :=
  ⟨c5_synthetic_pid_bounded_unique.1 5 (by norm_num [U32_MOD, SYNTHETIC_PID_COUNTER_INIT]),
   c5_synthetic_pid_bounded_unique.2 2 3 (by norm_num)
     (by norm_num [U32_MOD])⟩

/-- C3: contrary to the claim, `expand_environment_variables` does NOT
terminate on `"${UNSET_VAR}/x"` when `UNSET_VAR` is unset: the loop replaces
the placeholder with the identical literal `"${UNSET_VAR}"` and immediately
finds it again, so no amount of fuel makes the loop finish. -/
theorem c3_expand_env_unset_var_diverges (fuel : Nat) :
    expand_environment_variables (fun _ => none) "/opt/viberot" fuel
      "${UNSET_VAR}/x" = none := by
  have hstep : expandStep (fun _ => none) "/opt/viberot" "${UNSET_VAR}/x".data
      = ExpandStep.next "${UNSET_VAR}/x".data := by decide
  have hloop : ∀ f, expandLoop (fun _ => none) "/opt/viberot" f
      "${UNSET_VAR}/x".data = none := by
    intro f
    induction f with
    | zero => rfl
    | succ f ih => rw [expandLoop, hstep]; exact ih
  simp [expand_environment_variables, hloop]

/-- C2: evaluation at the failing input. Starting a single-instance executable
action whose spawn fails inserts the key `"exec:/nonexistent/x:"` into
`running_single_instance_actions` and never removes it, leaving a state with a
tracked key but no active action — the claimed invariant is violated. -/
theorem c2_failed_spawn_leaves_stale_key :
    (start_action (fun _ => none) OrchestratorState.new
        (Action.Executable "/nonexistent/x" none true) sampleEvent).1
      = { active_actions := [],
          running_single_instance_actions := ["exec:/nonexistent/x:"] } ∧
    ¬ KeysConsistent
        { active_actions := [],
          running_single_instance_actions := ["exec:/nonexistent/x:"] } := by
  constructor
  · rfl
  · rintro ⟨-, h2⟩
    obtain ⟨p, aas, aa, hmem, -⟩ := h2 "exec:/nonexistent/x:" (by simp)
    simp at hmem

/-- C1 counterexample: the claim says every non-single-instance action yields
exactly one spawn attempt, but a (non-single-instance) Lua action is warned
about and skipped: `start_action` performs no spawn attempt for it. -/
theorem c1_counterexample :
    is_single_instance (Action.Lua "notify" false) = false ∧
    (start_action (fun _ => some 1) OrchestratorState.new
        (Action.Lua "notify" false) sampleEvent).2.2 = [] := by
  exact ⟨rfl, rfl⟩

/-- C1 (amended): `start_actions` processes actions in order; a
non-single-instance *executable* action yields exactly one spawn attempt, a
single-instance executable action is attempted iff its key is absent at the
time of the call, a present key means the action is skipped with success and
unchanged state, and Lua actions yield no spawn attempt but still succeed. -/
theorem c1_start_actions_processing
    (spawn : Action → Option Nat) (st : OrchestratorState) (event : ProcessEvent)
    (path : String) (args : Option (List String)) (si : Bool) (script : String)
    (a : Action) (rest : List Action) :
    ((start_action spawn st (Action.Executable path args si) event).2.2
      = (if si &&
            st.running_single_instance_actions.contains
              (get_action_key (Action.Executable path args si))
         then [] else [Action.Executable path args si])) ∧
    (si = true →
      st.running_single_instance_actions.contains
          (get_action_key (Action.Executable path args si)) = true →
      start_action spawn st (Action.Executable path args si) event = (st, true, [])) ∧
    ((start_action spawn st (Action.Lua script si) event).2.2 = [] ∧
     (start_action spawn st (Action.Lua script si) event).2.1 = true) ∧
    (start_actions spawn st (a :: rest) event
      = ((start_actions spawn (start_action spawn st a event).1 rest event).1,
         (start_action spawn st a event).2.1 &&
           (start_actions spawn (start_action spawn st a event).1 rest event).2.1,
         (start_action spawn st a event).2.2 ++
           (start_actions spawn (start_action spawn st a event).1 rest event).2.2)) := by
  refine ⟨?_, ?_, ?_, rfl⟩
  · cases si with
    | false =>
        simp only [start_action, is_single_instance, Bool.false_and, Bool.false_eq_true,
          if_false, cond_false]
        cases spawn (Action.Executable path args false) <;> simp
    | true =>
        by_cases hc : get_action_key (Action.Executable path args true)
            ∈ st.running_single_instance_actions
        · simp [start_action, is_single_instance, hc]
        · simp only [start_action, is_single_instance]
          rw [if_neg (by simp [hc])]
          cases spawn (Action.Executable path args true) <;> simp [hc]
  · intro hsi hmem
    subst hsi
    have hmem' : get_action_key (Action.Executable path args true)
        ∈ st.running_single_instance_actions := by simpa using hmem
    simp [start_action, is_single_instance, hmem']
  · constructor <;>
      (cases si with
       | false => simp [start_action, is_single_instance]
       | true =>
           by_cases hc : get_action_key (Action.Lua script true)
               ∈ st.running_single_instance_actions <;>
             simp [start_action, is_single_instance, hc])

/-! Rule-engine helper lemmas. -/

/-- A left fold that appends list segments equals the flat map. -/
lemma foldl_append_flatMap (l : List Nat) (f : Nat → List Action) (acc : List Action) :
    l.foldl (fun acc i => acc ++ f i) acc = acc ++ l.flatMap f := by
  induction l generalizing acc with
  | nil => simp
  | cons i rest ih => simp [List.flatMap_cons, ih, List.append_assoc]

/-- The index-based filtering over two parallel projections of a pair list is
the direct flat map over the pairs. -/
lemma rangeFilter_flatMap_pairs (q : List GlobToken → Bool) :
    ∀ pairs : List (List GlobToken × List Action),
      ((List.range pairs.length).filter
          (fun i => q ((pairs.map Prod.fst).getD i []))).flatMap
        (fun i => (pairs.map Prod.snd).getD i [])
      = pairs.flatMap (fun pr => if q pr.1 then pr.2 else []) := by
  intro pairs
  induction pairs with
  | nil => simp
  | cons pr rest ih =>
      rw [List.length_cons, List.range_succ_eq_map, List.filter_cons]
      have hshift :
          ((List.map Nat.succ (List.range rest.length)).filter
              (fun i => q (((pr :: rest).map Prod.fst).getD i []))).flatMap
            (fun i => ((pr :: rest).map Prod.snd).getD i [])
          = ((List.range rest.length).filter
              (fun i => q ((rest.map Prod.fst).getD i []))).flatMap
            (fun i => (rest.map Prod.snd).getD i []) := by
        rw [List.filter_map]
        rw [List.flatMap_map]
        simp only [Function.comp_def, List.map_cons, List.getD_cons_succ,
          Nat.succ_eq_add_one]
      by_cases hq : q pr.1
      · rw [if_pos (by simpa using hq)]
        rw [List.flatMap_cons, hshift, ih, List.flatMap_cons, if_pos hq]
        simp
      · rw [if_neg (by simpa using hq)]
        rw [hshift, ih, List.flatMap_cons, if_neg hq]
        simp

/-- Per rule, flat-mapping over the compiled pairs is the pattern-wise match
with non-compiling patterns skipped. -/
lemma compileRule_flatMap (r : Rule) (g : List GlobToken × List Action → List Action) :
    (compileRule r).flatMap g
      = r.command.as_vec.flatMap (fun pat =>
          match globCompile pat with
          | some gl => g (gl, r.action.as_vec)
          | none => []) := by
  unfold compileRule
  induction r.command.as_vec with
  | nil => simp
  | cons pat rest ih =>
      rw [List.filterMap_cons, List.flatMap_cons]
      cases hc : globCompile pat with
      | none => simp [ih]
      | some gl => simp [List.flatMap_cons, ih]

/-- Matching on a freshly rebuilt cache is exactly the specification-side
concatenation of the action lists of every compiling, matching pattern, in
rule then pattern then action order. -/
lemma collect_rebuild (config : Config) (config_hash : Nat) (command : String) :
    collectActions (rebuild_cache config config_hash) command
      = specMatchedActions config command := by
  unfold collectActions globSetMatches rebuild_cache
  rw [foldl_append_flatMap, List.nil_append, List.length_map]
  rw [rangeFilter_flatMap_pairs (fun g => tokensMatch g command.data) (compiledPairs config)]
  unfold compiledPairs specMatchedActions
  rw [List.flatMap_assoc]
  refine List.flatMap_congr ?_ -- pointwise equality of per-rule contributions
  intro r _
  rw [compileRule_flatMap]

/-- C4: with a faithful cache (the spec's fingerprint contract),
`match_command` returns exactly the concatenation, in rule-declaration order
then per-pattern and per-action order, of the action lists of every matching
pattern; it is deterministic across cache states; duplicates from distinct
matching patterns are passed through. -/
theorem c4_match_command_spec (h : Config → Nat) (st : Option CachedGlobData)
    (command : String) (config : Config) (hfaith : CacheFaithful h st config) :
    ((match_command h st command config).1 = specMatchedActions config command) ∧
    (∀ st', CacheFaithful h st' config →
      (match_command h st command config).1 = (match_command h st' command config).1) ∧
    ((match_command (fun _ => 0) none "x" cfgDup).1
      = [Action.Executable "ovl" none false, Action.Executable "ovl" none false]) := by
  have main : ∀ st₀ : Option CachedGlobData, CacheFaithful h st₀ config →
      (match_command h st₀ command config).1 = specMatchedActions config command := by
    intro st₀ hf
    cases st₀ with
    | none => simp [match_command, collect_rebuild]
    | some data =>
        by_cases hh : data.config_hash = h config
        · obtain ⟨h1, h2⟩ := hf data rfl hh
          have : collectActions data command
              = collectActions (rebuild_cache config (h config)) command := by
            unfold collectActions globSetMatches rebuild_cache
            rw [h1, h2]
          simp only [match_command, hh, if_true, this, collect_rebuild]
        · simp [match_command, hh, collect_rebuild]
  refine ⟨main st hfaith, ?_, ?_⟩
  · intro st' hf'
    rw [main st hfaith, main st' hf']
  · simp only [match_command]
    rw [collect_rebuild]
    decide

/-- C4 witness: the theorem applied with an empty cache and with a freshly
rebuilt cache for the duplicate-rule configuration. -/
theorem c4_witness :
    ((match_command (fun _ => 0) none "x" cfgDup).1 = specMatchedActions cfgDup "x") ∧
    ((match_command (fun _ => 0) none "x" cfgDup).1
      = (match_command (fun _ => 0) (some (rebuild_cache cfgDup 0)) "x" cfgDup).1) := by
  have h := c4_match_command_spec (fun _ => 0) none "x" cfgDup (fun d hd => by cases hd)
  refine ⟨h.1, h.2.1 (some (rebuild_cache cfgDup 0)) ?_⟩
  intro d hd heq
  cases hd
  exact ⟨rfl, rfl⟩

/-- C7: a `match_command` call whose config fingerprint equals the cached one
leaves the cache untouched, and any call that changes the cache started from
an empty cache or a differing fingerprint. -/
theorem c7_cache_not_rebuilt (h : Config → Nat) (st : Option CachedGlobData)
    (command : String) (config : Config) :
    (∀ d, st = some d → d.config_hash = h config →
      (match_command h st command config).2 = st) ∧
    ((match_command h st command config).2 ≠ st →
      st = none ∨ ∃ d, st = some d ∧ d.config_hash ≠ h config) := by
  cases st with
  | none =>
      refine ⟨?_, fun _ => Or.inl rfl⟩
      intro d hd
      exact absurd hd (by simp)
  | some data =>
      by_cases hh : data.config_hash = h config
      · refine ⟨?_, ?_⟩
        · intro d hd heq
          simp [match_command, hh]
        · intro hne
          exact absurd (by simp [match_command, hh]) hne
      · refine ⟨?_, fun _ => Or.inr ⟨data, rfl, hh⟩⟩
        intro d hd heq
        injection hd with hd'
        subst hd'
        exact absurd heq hh

/-- C7 witness: a cache-hit call returns the cache unchanged, and a call from
the empty cache that does rebuild satisfies the characterization. -/
theorem c7_witness :
    ((match_command (fun _ => 0) (some (rebuild_cache cfgS4 0)) "git status" cfgS4).2
      = some (rebuild_cache cfgS4 0)) ∧
    ((none : Option CachedGlobData) = none ∨
      ∃ d, (none : Option CachedGlobData) = some d ∧ d.config_hash ≠ 0) :=
  ⟨(c7_cache_not_rebuilt (fun _ => 0) (some (rebuild_cache cfgS4 0)) "git status" cfgS4).1
      (rebuild_cache cfgS4 0) rfl rfl,
   (c7_cache_not_rebuilt (fun _ => 0) none "git status" cfgS4).2
      (by simp [match_command])⟩

/-- C8: a pattern that fails to compile is skipped without failing the call —
removing it from its rule changes nothing — and in spec scenario S4 the valid
`"*git*"` rule still yields its action for `"git status"` despite the invalid
`"[unclosed"` pattern in the config. -/
theorem c8_bad_glob_skipped :
    (∀ (h : Config → Nat) (command : String) (rules1 rules2 : List Rule)
        (cmds1 cmds2 : List String) (acts : Actions) (vh : Option String)
        (badPat : String), globCompile badPat = none →
      (match_command h none command
          { rules := rules1 ++
              { command := Commands.Multiple (cmds1 ++ badPat :: cmds2),
                action := acts } :: rules2,
            viberot_home := vh }).1
        = (match_command h none command
            { rules := rules1 ++
                { command := Commands.Multiple (cmds1 ++ cmds2),
                  action := acts } :: rules2,
              viberot_home := vh }).1) ∧
    ((match_command (fun _ => 0) none "git status" cfgS4).1
      = [Action.Executable "gitact" none false]) := by
  constructor
  · intro h command rules1 rules2 cmds1 cmds2 acts vh badPat hbad
    simp only [match_command]
    rw [collect_rebuild, collect_rebuild]
    simp only [specMatchedActions, List.flatMap_append, List.flatMap_cons,
      Commands.as_vec]
    rw [hbad]
    simp
  · simp only [match_command]
    rw [collect_rebuild]
    decide

/-- C8 witness: the skip equality applied at the S4 data, with the invalid
pattern `"[unclosed"`. -/
theorem c8_witness :
    (match_command (fun _ => 0) none "git status"
        { rules :=
            [] ++ { command := Commands.Multiple ([] ++ "[unclosed" :: []),
                    action := Actions.Single (Action.Executable "badact" none false) } ::
              [ { command := Commands.Multiple ["*git*"],
                  action := Actions.Single (Action.Executable "gitact" none false) } ],
          viberot_home := none }).1
      = (match_command (fun _ => 0) none "git status"
          { rules :=
              [] ++ { command := Commands.Multiple ([] ++ []),
                      action := Actions.Single (Action.Executable "badact" none false) } ::
                [ { command := Commands.Multiple ["*git*"],
                    action := Actions.Single (Action.Executable "gitact" none false) } ],
            viberot_home := none }).1 :=
  c8_bad_glob_skipped.1 (fun _ => 0) "git status" []
    [ { command := Commands.Multiple ["*git*"],
        action := Actions.Single (Action.Executable "gitact" none false) } ]
    [] [] (Actions.Single (Action.Executable "badact" none false)) none
    "[unclosed" (by decide)

/-- C10: `rebuild_cache` pushes one `rule_actions` entry per successfully
compiled glob, so the two parallel sequences have equal length and every
index returned by the glob-set match is in bounds for `rule_actions`. -/
theorem c10_match_index_in_bounds (config : Config) (config_hash : Nat)
    (command : String) :
    ((rebuild_cache config config_hash).glob_set.length
      = (rebuild_cache config config_hash).rule_actions.length) ∧
    (∀ i, i ∈ globSetMatches (rebuild_cache config config_hash).glob_set command →
      i < (rebuild_cache config config_hash).rule_actions.length) := by
  constructor
  · simp [rebuild_cache]
  · intro i hi
    simp only [globSetMatches, List.mem_filter, List.mem_range] at hi
    have := hi.1
    simpa [rebuild_cache] using this

/-- C10 witness: in the S4 configuration the match index 0 (the compiled
`"*git*"` glob) is in bounds. -/
theorem c10_witness :
    0 < (rebuild_cache cfgS4 0).rule_actions.length :=
  (c10_match_index_in_bounds cfgS4 0 "git status").2 0 (by decide)

/-! Shell-probe helper lemmas. -/

lemma sessionPids_cons (k : String) (v : Nat) (l : List (String × Nat)) :
    sessionPids ((k, v) :: l) = v ::ₘ sessionPids l := by
  simp [sessionPids]

lemma lookupAssoc_mem_sessionPids {l : List (String × Nat)} {k : String} {p : Nat}
    (h : lookupAssoc l k = some p) : p ∈ sessionPids l := by
  induction l with
  | nil => simp [lookupAssoc] at h
  | cons kv rest ih =>
      obtain ⟨k', v⟩ := kv
      rw [lookupAssoc] at h
      by_cases hk : k' = k
      · rw [if_pos hk] at h
        injection h with h'
        subst h'
        simp [sessionPids_cons]
      · rw [if_neg hk] at h
        simp [sessionPids_cons, ih h]

lemma removeKey_sessionPids_le (l : List (String × Nat)) (k : String) :
    sessionPids (removeKey l k) ≤ sessionPids l := by
  induction l with
  | nil => simp [removeKey]
  | cons kv rest ih =>
      obtain ⟨k', v⟩ := kv
      rw [removeKey]
      by_cases hk : k' = k
      · rw [if_pos hk, sessionPids_cons]
        exact le_trans ih (Multiset.le_cons_self _ _)
      · rw [if_neg hk, sessionPids_cons, sessionPids_cons]
        exact Multiset.cons_le_cons v ih

lemma removeKey_sessionPids_le_erase {l : List (String × Nat)} {k : String} {p : Nat}
    (h : lookupAssoc l k = some p) :
    sessionPids (removeKey l k) ≤ (sessionPids l).erase p := by
  induction l with
  | nil => simp [lookupAssoc] at h
  | cons kv rest ih =>
      obtain ⟨k', v⟩ := kv
      rw [lookupAssoc] at h
      rw [removeKey]
      by_cases hk : k' = k
      · rw [if_pos hk] at h
        injection h with h'
        subst h'
        rw [if_pos hk, sessionPids_cons, Multiset.erase_cons_head]
        exact removeKey_sessionPids_le rest k
      · rw [if_neg hk] at h
        rw [if_neg hk, sessionPids_cons, sessionPids_cons]
        by_cases hpv : p = v
        · subst hpv
          rw [Multiset.erase_cons_head]
          calc p ::ₘ sessionPids (removeKey rest k)
              ≤ p ::ₘ (sessionPids rest).erase p := Multiset.cons_le_cons p (ih h)
            _ = sessionPids rest := Multiset.cons_erase (lookupAssoc_mem_sessionPids h)
        · rw [Multiset.erase_cons_tail _ (fun hvp => hpv hvp.symm)]
          exact Multiset.cons_le_cons v (ih h)

/-- Shape of the CommandStart branch of `processShellMessage`. -/
lemma processShellMessage_start (decode : String → Option String) (now : Nat)
    (st : ProbeState) (msg : ShellMessage)
    (h : msg.event_type = ShellEventType.CommandStart) :
    ∃ e : ProcessEvent, e.pid = st.counter ∧
      processShellMessage decode now st msg
        = ({ active_sessions := insertAssoc st.active_sessions msg.session_id st.counter,
             counter := (st.counter + 1) % U32_MOD },
           [ProcessLifecycleEvent.Started e]) := by
  simp only [processShellMessage, h]
  exact ⟨_, rfl, rfl⟩

/-- Every run of the probe from a state whose stored session pids are covered
by `avail` produces a trace in which every `Ended` consumes an earlier
`Started`. -/
lemma run_endedCovered (decode : String → Option String) (now : Nat) :
    ∀ (msgs : List ShellMessage) (st : ProbeState) (avail : List Nat),
      sessionPids st.active_sessions ≤ (avail : Multiset Nat) →
      endedCovered avail (processShellMessages decode now st msgs).2 = true := by
  intro msgs
  induction msgs with
  | nil =>
      intro st avail _
      rfl
  | cons m rest ih =>
      intro st avail hsub
      simp only [processShellMessages]
      cases hev : m.event_type with
      | CommandStart =>
          obtain ⟨e, hpid, heq⟩ := processShellMessage_start decode now st m hev
          rw [heq]
          simp only [List.singleton_append]
          rw [endedCovered, hpid]
          apply ih
          simp only [insertAssoc, sessionPids_cons]
          rw [← Multiset.cons_coe]
          exact Multiset.cons_le_cons st.counter
            (le_trans (removeKey_sessionPids_le _ _) hsub)
      | CommandEnd =>
          cases hlk : lookupAssoc st.active_sessions m.session_id with
          | none =>
              simp only [processShellMessage, hev, hlk, List.nil_append]
              exact ih st avail hsub
          | some p =>
              simp only [processShellMessage, hev, hlk, List.singleton_append]
              rw [endedCovered]
              have hpmem : p ∈ avail := by
                have h1 : p ∈ sessionPids st.active_sessions :=
                  lookupAssoc_mem_sessionPids hlk
                have h2 := Multiset.mem_of_le hsub h1
                simpa using h2
              rw [Bool.and_eq_true]
              refine ⟨by simpa using hpmem, ?_⟩
              apply ih
              calc sessionPids (removeKey st.active_sessions m.session_id)
                  ≤ (sessionPids st.active_sessions).erase p :=
                    removeKey_sessionPids_le_erase hlk
                _ ≤ (↑avail : Multiset Nat).erase p := Multiset.erase_le_erase p hsub
                _ = (↑(avail.erase p) : Multiset Nat) := Multiset.coe_erase avail p

/-- C6: over any sequence of shell messages from daemon start, the emitted
trace never contains an `Ended` that is not covered by an earlier `Started`
with the same pid (and each `Started` covers at most one `Ended`); a
CommandEnd for an unknown session emits nothing and leaves the state alone;
a known CommandEnd removes exactly that session entry and emits the stored
pid. -/
theorem c6_ended_after_started :
    (∀ (decode : String → Option String) (now : Nat) (msgs : List ShellMessage),
      endedCovered [] (processShellMessages decode now initialProbeState msgs).2
        = true) ∧
    (∀ decode now st (msg : ShellMessage),
      msg.event_type = ShellEventType.CommandEnd →
      lookupAssoc st.active_sessions msg.session_id = none →
      processShellMessage decode now st msg = (st, [])) ∧
    (∀ decode now st (msg : ShellMessage) (p : Nat),
      msg.event_type = ShellEventType.CommandEnd →
      lookupAssoc st.active_sessions msg.session_id = some p →
      processShellMessage decode now st msg
        = ({ active_sessions := removeKey st.active_sessions msg.session_id,
             counter := st.counter },
           [ProcessLifecycleEvent.Ended p])) := by
  refine ⟨?_, ?_, ?_⟩
  · intro decode now msgs
    exact run_endedCovered decode now msgs initialProbeState []
      (by simp [initialProbeState, sessionPids])
  · intro decode now st msg h hlk
    simp [processShellMessage, h, hlk]
  · intro decode now st msg p h hlk
    simp [processShellMessage, h, hlk]

/-- C6 witness: an end for an unknown session is dropped; an end for a known
session emits the stored synthetic pid and removes the entry. -/
theorem c6_witness :
    (processShellMessage (fun _ => none) 0 initialProbeState
        { session_id := "S", event_type := ShellEventType.CommandEnd }
      = (initialProbeState, [])) ∧
    (processShellMessage (fun _ => none) 0
        { active_sessions := [("S", 1000000)], counter := 1000001 }
        { session_id := "S", event_type := ShellEventType.CommandEnd }
      = ({ active_sessions := removeKey [("S", 1000000)] "S", counter := 1000001 },
         [ProcessLifecycleEvent.Ended 1000000])) :=
  ⟨c6_ended_after_started.2.1 (fun _ => none) 0 initialProbeState
      { session_id := "S", event_type := ShellEventType.CommandEnd } rfl (by decide),
   c6_ended_after_started.2.2 (fun _ => none) 0
      { active_sessions := [("S", 1000000)], counter := 1000001 }
      { session_id := "S", event_type := ShellEventType.CommandEnd } 1000000 rfl
      (by decide)⟩

theorem c1_witness :
    ((start_action (fun _ => some 9)
        { active_actions := [], running_single_instance_actions := ["exec:overlay:"] }
        (Action.Executable "overlay" none true) sampleEvent).2.2 = []) ∧
    (start_action (fun _ => some 9)
        { active_actions := [], running_single_instance_actions := ["exec:overlay:"] }
        (Action.Executable "overlay" none true) sampleEvent
      = ({ active_actions := [], running_single_instance_actions := ["exec:overlay:"] },
         true, [])) := by
  have h := c1_start_actions_processing (fun _ => some 9)
    { active_actions := [], running_single_instance_actions := ["exec:overlay:"] }
    sampleEvent "overlay" none true "s" (Action.Lua "s" false) []
  exact ⟨by rw [h.1]; rfl, h.2.1 rfl (by decide)⟩

/-- C9: `resolve_action_path` keeps trimmed separator-free, dot-free names
unchanged for OS PATH lookup; `${VIBEROT_HOME}` expands to the project root
and `${VIBEROT_ACTIONS}` to root/actions; any other path is expanded and then
used as-is when absolute or joined against the root otherwise; in particular
`"${VIBEROT_ACTIONS}/overlay"` under root `/opt/viberot` resolves to
`/opt/viberot/actions/overlay`. -/
theorem c9_resolve_action_path :
    (∀ (getVar : String → Option String) (root : String) (fuel : Nat) (path : String),
      strContains (strTrim path) '/' = false → strContains (strTrim path) '\\' = false →
      strContains (strTrim path) '.' = false →
      resolve_action_path getVar root fuel path = some (strTrim path)) ∧
    (∀ (getVar : String → Option String) (root : String) (rest : List Char),
      expandStep getVar root ("${VIBEROT_HOME}".data ++ rest)
        = ExpandStep.next (root.data ++ rest)) ∧
    (∀ (getVar : String → Option String) (root : String) (rest : List Char),
      expandStep getVar root ("${VIBEROT_ACTIONS}".data ++ rest)
        = ExpandStep.next ((pathJoin root "actions").data ++ rest)) ∧
    (∀ (getVar : String → Option String) (root : String) (fuel : Nat)
        (path expanded : String),
      (strContains (strTrim path) '/' || strContains (strTrim path) '\\' ||
        strContains (strTrim path) '.') = true →
      expand_environment_variables getVar root fuel (strTrim path) = some expanded →
      resolve_action_path getVar root fuel path
        = some (if is_absolute expanded then expanded else pathJoin root expanded)) ∧
    (∀ (getVar : String → Option String) (fuel : Nat),
      resolve_action_path getVar "/opt/viberot" (fuel + 2) "${VIBEROT_ACTIONS}/overlay"
        = some "/opt/viberot/actions/overlay") := by
  refine ⟨?_, ?_, ?_, ?_, ?_⟩
  · intro getVar root fuel path h1 h2 h3
    simp [resolve_action_path, h1, h2, h3]
  · intro getVar root rest
    rfl
  · intro getVar root rest
    rfl
  · intro getVar root fuel path expanded hsep hexp
    have hcond : (!strContains (strTrim path) '/' && !strContains (strTrim path) '\\' &&
        !strContains (strTrim path) '.') = false := by
      rcases Bool.or_eq_true_iff.mp hsep with h | h
      · rcases Bool.or_eq_true_iff.mp h with h' | h' <;> simp [h']
      · simp [h]
    simp only [resolve_action_path, hcond, Bool.false_eq_true, if_false, hexp]
    by_cases habs : is_absolute expanded <;> simp [habs]
  · intro getVar fuel
    rfl

/-- C9 witness: a bare name, a dotted relative path, and the S5 scenario. -/
theorem c9_witness :
    (resolve_action_path (fun _ => none) "/r" 5 " python " = some "python") ∧
    (resolve_action_path (fun _ => none) "/r" 5 "./local/tool"
      = some "/r/./local/tool") ∧
    (resolve_action_path (fun _ => none) "/opt/viberot" 2 "${VIBEROT_ACTIONS}/overlay"
      = some "/opt/viberot/actions/overlay") := by
  refine ⟨?_, ?_, ?_⟩
  · exact c9_resolve_action_path.1 (fun _ => none) "/r" 5 " python "
      (by decide) (by decide) (by decide)
  · have h := c9_resolve_action_path.2.2.2.1 (fun _ => none) "/r" 5 "./local/tool"
      "./local/tool" (by decide) (by decide)
    rw [h]
    rfl
  · exact c9_resolve_action_path.2.2.2.2 (fun _ => none) 0

end Viberot
